import Mathlib

/-!
Shallow embedding of the NewsML-2.0 feed parser
(`superdesk/io/feed_parsers/newsml_2_0.py`) and of the crop-size routine
(`apps/picture_crop/__init__.py`), with theorems settling the frozen claims.

Python exceptions are modelled with `Except PyErr`; XML element trees with
an inductive `Xml` type mirroring `xml.etree.ElementTree` (tag, attributes,
text, ordered children); Python dicts whose key sets grow during parsing
with structures whose optional fields use `Option` (`none` = key absent).
Collaborators imported by the module but not part of the excerpt
(`map_priority`, `is_normal_package`, `subject_codes`, timestamp parsing)
are opaque per spec §1/§6 and are carried in an `Env` record, so every
theorem quantifies over their behaviour.
-/

/-- Python exception kinds that the parser code can raise. -/
inductive PyErr where
  | keyError
  | attributeError
  | valueError
  | indexError
  | typeError
  | zeroDivisionError
deriving DecidableEq, Repr

/-- Characters stripped by Python `int()` / `str.strip()`. -/
def isPySpace (c : Char) : Bool :=
  c = ' ' || c = '\t' || c = '\n' || c = '\r' || c = '\x0b' || c = '\x0c'

/-- Leading and trailing whitespace removed, as Python `int()` does before parsing. -/
def pystrip (s : String) : List Char :=
  ((s.data.dropWhile isPySpace).reverse.dropWhile isPySpace).reverse

/-- Value of a list of ASCII digits. -/
def digitsToNat (l : List Char) : Nat :=
  l.foldl (fun n c => n * 10 + (c.toNat - 48)) 0

/-- Python `int(s)` on a string: optional surrounding whitespace, optional
sign, then a nonempty run of digits; anything else raises `ValueError`. -/
def pyInt (s : String) : Except PyErr Int :=
  let t := pystrip s
  let p : Int × List Char :=
    match t with
    | '-' :: r => (-1, r)
    | '+' :: r => (1, r)
    | r => (1, r)
  if !p.2.isEmpty && p.2.all Char.isDigit then
    .ok (p.1 * (digitsToNat p.2 : Int))
  else
    .error .valueError

/-- Python `int(x)` where `x` came from `elem.text`: `int(None)` raises
`TypeError`. -/
def pyIntOfText : Option String → Except PyErr Int
  | none => .error .typeError
  | some s => pyInt s

/-- Python `str.split(sep)` for a one-character separator (no maxsplit). -/
def pysplitAux (sep : Char) : List Char → List Char → List String
  | [], acc => [String.mk acc.reverse]
  | c :: cs, acc =>
    if c = sep then String.mk acc.reverse :: pysplitAux sep cs []
    else pysplitAux sep cs (c :: acc)

/-- Python `s.split(sep)` (also `s.rsplit(sep)` with no maxsplit). -/
def pysplit (sep : Char) (s : String) : List String :=
  pysplitAux sep s.data []

/-- Python `s.split(sep)[1]`: raises `IndexError` when fewer than two parts. -/
def splitIdx1 (sep : Char) (s : String) : Except PyErr String :=
  match (pysplit sep s).get? 1 with
  | some v => .ok v
  | none => .error .indexError

/-- Python `str.lower()` (ASCII-sufficient for the codes involved). -/
def pylower (s : String) : String :=
  String.mk (s.data.map Char.toLower)

/-- Python `s.startswith(p)`. -/
def pystartsWith (s p : String) : Bool :=
  p.data.isPrefixOf s.data

/-- Step-fuelled worker for Python `str.replace` (each step consumes at
least one character, so fuel = input length is exact for nonempty patterns). -/
def pyreplaceAux (pat repl : List Char) : Nat → List Char → List Char
  | _, [] => []
  | 0, l => l
  | Nat.succ fuel, c :: cs =>
    if pat.isPrefixOf (c :: cs) then
      repl ++ pyreplaceAux pat repl fuel (cs.drop (pat.length - 1))
    else
      c :: pyreplaceAux pat repl fuel cs

/-- Python `s.replace(pat, repl)` for a nonempty pattern: leftmost,
non-overlapping replacement of every occurrence. -/
def pyreplace (s pat repl : String) : String :=
  String.mk (pyreplaceAux pat.data repl.data s.data.length s.data)

/-- An `xml.etree.ElementTree` element: tag, attribute list (document
order), optional text, and ordered child elements. -/
inductive Xml where
  | elem (tag : String) (attrib : List (String × String)) (text : Option String)
      (children : List Xml)

def Xml.tag : Xml → String
  | .elem t _ _ _ => t

def Xml.attrib : Xml → List (String × String)
  | .elem _ a _ _ => a

def Xml.text : Xml → Option String
  | .elem _ _ t _ => t

def Xml.children : Xml → List Xml
  | .elem _ _ _ c => c

/-- Python `elem.get(k)` / `elem.attrib.get(k)`: the attribute value or `None`. -/
def Xml.attribGet (x : Xml) (k : String) : Option String :=
  (x.attrib.find? (fun p => p.1 = k)).map (fun p => p.2)

/-- Python `elem.attrib[k]`: raises `KeyError` when the attribute is absent. -/
def Xml.getAttr (x : Xml) (k : String) : Except PyErr String :=
  match x.attribGet k with
  | some v => .ok v
  | none => .error .keyError

/-- Python `elem.find(tag)`: first direct child with the tag, else `None`. -/
def Xml.find (x : Xml) (t : String) : Option Xml :=
  x.children.find? (fun c => c.tag = t)

/-- Python `elem.findall(tag)`: all direct children with the tag, in order. -/
def Xml.findall (x : Xml) (t : String) : List Xml :=
  x.children.filter (fun c => c.tag = t)

/-- Python attribute access on the result of a `find`: `None.x` raises
`AttributeError`. -/
def needA {α : Type} : Option α → Except PyErr α
  | some a => .ok a
  | none => .error .attributeError

/-- Python iteration over the result of a `find`: `for x in None` raises
`TypeError`. -/
def needT {α : Type} : Option α → Except PyErr α
  | some a => .ok a
  | none => .error .typeError

def XMLNS : String := "http://iptc.org/std/nar/2006-10-01/"

def XHTML : String := "http://www.w3.org/1999/xhtml"

/-- Modelled from the spec: the namespace-selector resolution inside the
qualified-name resolver (`XMLFeedParser.qname`, base class not in the
excerpt); per §4.1 it supports the primary content namespace, the embedded
markup namespace and the XML-intrinsic namespace used for `lang`. -/
def resolveNs (ns : String) : String :=
  if ns = "xml" then "http://www.w3.org/XML/1998/namespace" else ns

/-- Modelled from the spec: the qualified-name resolver (§4.1) — build the
ElementTree-style fully qualified name `\x7bnamespace\x7dlocal` used to
address nodes. -/
def qname (name : String) (ns : String := XMLNS) : String :=
  "\x7b" ++ resolveNs ns ++ "\x7d" ++ name

/-- Modelled from the spec: `CONTENT_TYPE.PREFORMATTED`
(`superdesk.metadata.item`, not in the excerpt) — the "preformatted"
format marker of §4.6. -/
def CONTENT_TYPE_PREFORMATTED : String := "preformatted"

/-- One entry of `item['subject']`: `{'qcode': ..., 'name': ...}`. -/
structure SubjEntry where
  qcode : String
  name : String
deriving DecidableEq, Repr

/-- One entry of `item['place']`: `{'name': ...}` (the name may be Python
`None` when neither a name child nor a `literal` attribute exists). -/
structure PlaceEntry where
  name : Option String
deriving DecidableEq, Repr

/-- One entry of `item['genre']`: `{'name': ...}`. -/
structure GenreEntry where
  name : Option String
deriving DecidableEq, Repr

/-- A remote-content rendition dict built by `parse_remote_content`. -/
structure Rendition where
  residRef : Option String
  sizeinbytes : Int
  rendition : String
  mimetype : String
  href : Option String
deriving DecidableEq, Repr

/-- A ref dict built by `parse_refs`: either an internal pointer
(`{'idRef': ...}`) or an external one; `headline` is doubly optional (outer
`none` = key absent, inner `none` = Python `None` text). -/
inductive Ref where
  | internal (idRef : String)
  | external (residRef contentType itemClass : String) (headline : Option (Option String))
deriving DecidableEq, Repr

/-- One entry of `item['groups']` (the `data` dict of `parse_group_set`). -/
structure GroupEntry where
  id : String
  role : String
  refs : List Ref
deriving DecidableEq, Repr

/-- The item dict built by `parse_item`.  Fields the source only sets on
some paths are `Option`s with `none` meaning the key is absent; a nested
`Option` distinguishes a key holding Python `None` from an absent key. -/
structure Item where
  guid : String := ""
  uri : String := ""
  version : String := ""
  itemType : String := ""
  versioncreated : String := ""
  firstcreated : String := ""
  pubstatus : String := ""
  ednote : Option String := some ""
  urgency : Option Int := none
  slugline : Option String := some ""
  headline : Option String := some ""
  byline : Option (Option String) := none
  description_text : Option (Option String) := none
  archive_description : Option (Option String) := none
  language : Option (Option String) := none
  subject : List SubjEntry := []
  place : Option (List PlaceEntry) := none
  original_source : Option (Option String) := none
  genre : List GenreEntry := []
  usageterms : Option (Option String) := none
  word_count : Option Int := none
  body_html : Option (Option String) := none
  format : Option String := none
  renditions : Option (List (String × Rendition)) := none
  groups : Option (List GroupEntry) := none
  priority : Option Int := none
deriving DecidableEq, Repr

/-- Python dict assignment `d[k] = v` on an insertion-ordered dict kept as
an association list: overwrite in place when the key exists, else append. -/
def dictInsert (l : List (String × Rendition)) (k : String) (v : Rendition) :
    List (String × Rendition) :=
  if l.any (fun p => p.1 = k) then
    l.map (fun p => if p.1 = k then (k, v) else p)
  else
    l ++ [(k, v)]

/-- The collaborators the parser consumes but whose code is outside the
excerpt; per spec §1/§6 they are opaque interfaces:
`map_priority` is the priority lookup (`mapPriorityText`), `dtf` the
timestamp normalizer backing `self.datetime` (§4.2, kept abstract),
`is_normal_package` the package-vs-content classification predicate, and
`subject_codes` the subject-vocabulary lookup table. -/
structure Env where
  map_priority : Option String → Int
  dtf : Option String → Except PyErr String
  is_normal_package : Item → Bool
  subject_codes : String → Option String

/-- Modelled from the spec: `ParserError.newsmlTwoParserError`
(`superdesk.errors`, not in the excerpt) wraps the original cause together
with the originating provider context (§7). -/
structure ParserError where
  cause : PyErr
  provider : Option String
deriving DecidableEq, Repr

namespace NewsMLTwoFeedParser

/-- `parse_header`: default priority 5; when a `header` element exists, map
its `priority` child's text through the lookup (`None.text` raises
`AttributeError` when the child is missing).  Returns the value of the
`{'priority': ...}` dict the source builds. -/
def parse_header (env : Env) (tree : Xml) : Except PyErr Int :=
  match tree.find (qname "header") with
  | none => .ok 5
  | some header =>
    match header.find (qname "priority") with
    | none => .error .attributeError
    | some p => .ok (env.map_priority p.text)

/-- `parse_item_meta`: itemClass qcode second segment, timestamps,
pubStatus qcode second segment lower-cased, edNote text or `''`. -/
def parse_item_meta (env : Env) (tree : Xml) (item : Item) : Except PyErr Item := do
  let meta ← needA (tree.find (qname "itemMeta"))
  let ic ← needA (meta.find (qname "itemClass"))
  let icq ← ic.getAttr "qcode"
  let ty ← splitIdx1 ':' icq
  let vcEl ← needA (meta.find (qname "versionCreated"))
  let vc ← env.dtf vcEl.text
  let fcEl ← needA (meta.find (qname "firstCreated"))
  let fc ← env.dtf fcEl.text
  let psEl ← needA (meta.find (qname "pubStatus"))
  let psq ← psEl.getAttr "qcode"
  let ps ← splitIdx1 ':' psq
  let ednote : Option String :=
    match meta.find (qname "edNote") with
    | some e => e.text
    | none => some ""
  pure { item with itemType := ty, versioncreated := vc, firstcreated := fc,
                   pubstatus := pylower ps, ednote := ednote }

/-- `parse_content_subject`: keep subjects whose `qcode` splits on `:` into
exactly two parts with first part `subj` and whose code is in the
vocabulary table; lookup misses are skipped (the `except KeyError`). -/
def parse_content_subject (env : Env) (tree : Xml) (item : Item) : Item :=
  { item with subject :=
      (tree.findall (qname "subject")).foldl (fun acc subject =>
        match pysplit ':' ((subject.attribGet "qcode").getD "") with
        | [p0, p1] =>
          if p0 = "subj" then
            match env.subject_codes p1 with
            | some nm => acc ++ [{ qcode := p1, name := nm }]
            | none => acc
          else acc
        | _ => acc) [] }

/-- `get_literal_name`: the `name` child's text, else the `literal` attribute. -/
def get_literal_name (item : Xml) : Option String :=
  match item.find (qname "name") with
  | some n => n.text
  | none => item.attribGet "literal"

/-- The loop body of `parse_content_place`, for one subject child. -/
def placeStep (it : Item) (subject : Xml) : Item :=
  if (subject.attribGet "type").getD "" = "cptType:5" then
    let l := [PlaceEntry.mk (get_literal_name subject)]
    let l :=
      match subject.find (qname "broader") with
      | some b => l ++ [PlaceEntry.mk (get_literal_name b)]
      | none => l
    { it with place := some l }
  else it

/-- `parse_content_place`: each subject with `type="cptType:5"` resets
`item['place']` to its own name plus, when present, its `broader` child's
name. -/
def parse_content_place (tree : Xml) (item : Item) : Item :=
  (tree.findall (qname "subject")).foldl placeStep item

/-- `parse_rights_info`: when a `rightsInfo` element exists, set
`usageterms` to `getattr(info.find('usageTerms'), 'text', '')`. -/
def parse_rights_info (tree : Xml) (item : Item) : Item :=
  match tree.find (qname "rightsInfo") with
  | none => item
  | some info =>
    let ut : Option String :=
      match info.find (qname "usageTerms") with
      | some e => e.text
      | none => some ""
    { item with usageterms := some ut }

/-- `parse_meta_item_text('urgency')`: the only fallible leaf extractor of
`parse_content_meta` — `int(elem.text)` when an `urgency` element exists. -/
def parse_urgency (meta : Xml) (item : Item) : Except PyErr Item :=
  match meta.find (qname "urgency") with
  | some el => do
    let n ← pyIntOfText el.text
    pure { item with urgency := some n }
  | none => pure item

/-- `parse_meta_item_text` for slugline/headline/byline plus the `''`
defaulting of slugline and headline. -/
def content_meta_scalars (meta : Xml) (item : Item) : Item :=
  { item with
    slugline := ((meta.find (qname "slugline")).map Xml.text).getD (some ""),
    headline := ((meta.find (qname "headline")).map Xml.text).getD (some ""),
    byline := (meta.find (qname "by")).map Xml.text }

/-- The `description` block with its `archive_description` alias (absence
tolerated by the `except AttributeError`). -/
def content_meta_description (meta : Xml) (item : Item) : Item :=
  match meta.find (qname "description") with
  | some el =>
    { item with description_text := some el.text, archive_description := some el.text }
  | none => item

/-- The `language` tag block (absence tolerated). -/
def content_meta_language (meta : Xml) (item : Item) : Item :=
  match meta.find (qname "language") with
  | some el => { item with language := some (el.attribGet "tag") }
  | none => item

/-- The first `infoSource` child with role `cRole:source`, if any. -/
def content_meta_infosource (meta : Xml) (item : Item) : Item :=
  match (meta.findall (qname "infoSource")).find?
      (fun s => (s.attribGet "role").getD "" = "cRole:source") with
  | some s => { item with original_source := some (s.attribGet "literal") }
  | none => item

/-- The genre loop: English-tagged genre names, in source order. -/
def content_meta_genre (meta : Xml) (item : Item) : Item :=
  { item with genre :=
    (meta.findall (qname "genre")).foldl (fun acc g =>
      acc ++ (g.findall (qname "name")).filterMap (fun n =>
        match n.attribGet (qname "lang" "xml") with
        | some l => if pystartsWith l "en" then some (GenreEntry.mk n.text) else none
        | none => none)) [] }

/-- The remaining (pure) body of `parse_content_meta` after the urgency
extractor, in source order: scalar leaves, description, language,
subjects, places, info source, genres. -/
def content_meta_rest (env : Env) (meta : Xml) (item : Item) : Item :=
  content_meta_genre meta
    (content_meta_infosource meta
      (parse_content_place meta
        (parse_content_subject env meta
          (content_meta_language meta
            (content_meta_description meta
              (content_meta_scalars meta item))))))

/-- `parse_content_meta`: the scalar leaf extractors and structured-list
extractors over the `contentMeta` subtree, in source order. -/
def parse_content_meta (env : Env) (tree : Xml) (item : Item) : Except PyErr Item := do
  let meta ← needA (tree.find (qname "contentMeta"))
  let item ← parse_urgency meta item
  pure (content_meta_rest env meta item)

/-- `parse_refs`: refs with an `idref` attribute are internal pointers;
otherwise `residref` (version-suffixed when a `version` attribute exists),
`contenttype` and the `itemClass` child's `qcode` are required, and every
`headline` child is assigned in turn (last one wins). -/
def parse_refs (group_tree : Xml) : Except PyErr (List Ref) :=
  group_tree.children.foldlM (fun refs tree => do
    match tree.attribGet "idref" with
    | some idr => pure (refs ++ [Ref.internal idr])
    | none => do
      let rr ←
        if (tree.attribGet "version").isSome then do
          let r ← tree.getAttr "residref"
          let v ← tree.getAttr "version"
          pure (r ++ ":" ++ v)
        else
          tree.getAttr "residref"
      let ct ← tree.getAttr "contenttype"
      let icEl ← needA (tree.find (qname "itemClass"))
      let ic ← icEl.getAttr "qcode"
      let hl : Option (Option String) := (tree.findall (qname "headline")).getLast?.map Xml.text
      pure (refs ++ [Ref.external rr ct ic hl])) []

/-- `parse_group_set`: one `{'id', 'role', 'refs'}` entry per `groupSet`
child (`id` and `role` attributes required). -/
def parse_group_set (tree : Xml) (item : Item) : Except PyErr Item := do
  let gs ← needT (tree.find (qname "groupSet"))
  let groups ← gs.children.foldlM (fun acc group => do
    let gid ← group.getAttr "id"
    let role ← group.getAttr "role"
    let refs ← parse_refs group
    pure (acc ++ [GroupEntry.mk gid role refs])) []
  pure { item with groups := some groups }

/-- `parse_remote_content`: the remote rendition dict — optional
`residref`, `size` defaulting to `'0'` then parsed as int, second
colon-segment of the required `rendition` attribute, required
`contenttype`, optional `href`. -/
def parse_remote_content (tree : Xml) : Except PyErr Rendition := do
  let residRef := tree.attribGet "residref"
  let sz ← pyInt ((tree.attribGet "size").getD "0")
  let rend ← tree.getAttr "rendition"
  let r ← splitIdx1 ':' rend
  let mt ← tree.getAttr "contenttype"
  pure { residRef := residRef, sizeinbytes := sz, rendition := r, mimetype := mt,
         href := tree.attribGet "href" }

/-- The content dict of `parse_inline_content`. -/
structure InlineContent where
  contenttype : String
  content : Option String := none
  format : Option String := none
deriving DecidableEq, Repr

/-- `parse_inline_content`: flatten the embedded XHTML body — one
`<tag>text</tag>` string per child with truthy text (tag = part after the
namespace brace); when the result is a single element and the body's first
child is a `p`, rewrite indentation line feeds as paragraph breaks and the
rest as `<br/>`; fall back to a `<pre>` wrapper around the body's own
text. -/
def parse_inline_content (tree : Xml) : Except PyErr InlineContent := do
  let html ← needA (tree.find (qname "html" XHTML))
  let body ← needT (html.find (qname "body" XHTML))
  let elements ← body.children.foldlM (fun els el =>
    match el.text with
    | some txt =>
      if txt ≠ "" then do
        let tag ← splitIdx1 '\x7d' el.tag
        pure (els ++ ["<" ++ tag ++ ">" ++ txt ++ "</" ++ tag ++ ">"])
      else pure els
    | none => pure els) []
  let elements ← (match elements with
    | [e] => do
      let b0 ← (match body.children with
        | [] => Except.error PyErr.indexError
        | c :: _ => Except.ok c)
      let t0 ← splitIdx1 '\x7d' b0.tag
      if t0 = "p" then
        pure [pyreplace (pyreplace e "\n    " "</p><p>") "\n" "<br/>"]
      else
        pure [e]
    | es => pure es)
  let ct ← tree.getAttr "contenttype"
  if elements.length > 0 then
    pure { contenttype := ct, content := some (String.intercalate "\n" elements) }
  else
    match body.text with
    | some bt =>
      if bt ≠ "" then
        pure { contenttype := ct, content := some ("<pre>" ++ bt ++ "</pre>"),
               format := some CONTENT_TYPE_PREFORMATTED }
      else pure { contenttype := ct }
    | none => pure { contenttype := ct }

/-- The `try: item['word_count'] = int(content.attrib['wordcount'])
except KeyError: pass` block: only the absent-attribute case is tolerated;
an unparsable value raises. -/
def parse_wordcount (content : Xml) (item : Item) : Except PyErr Item :=
  match content.attribGet "wordcount" with
  | some w => do
    let n ← pyInt w
    pure { item with word_count := some n }
  | none => pure item

/-- The loop body of `parse_content_set`, for one `contentSet` child:
`inlineXML` (wordcount then inline body), `inlineData` (verbatim text body
then wordcount), anything else a remote rendition keyed by its rendition
name. -/
def content_set_step (it : Item) (content : Xml) : Except PyErr Item :=
  if content.tag = qname "inlineXML" then do
    let it ← parse_wordcount content it
    let c ← parse_inline_content content
    let it := { it with body_html := some c.content }
    pure (match c.format with
      | some f => { it with format := some f }
      | none => it)
  else if content.tag = qname "inlineData" then
    parse_wordcount content { it with body_html := some content.text }
  else do
    let r ← parse_remote_content content
    pure { it with renditions := some (dictInsert (it.renditions.getD []) r.rendition r) }

/-- `parse_content_set`: initialize `renditions` to the empty dict, then
run every `contentSet` child through `content_set_step`. -/
def parse_content_set (tree : Xml) (item : Item) : Except PyErr Item := do
  let item := { item with renditions := some [] }
  let cs ← needT (tree.find (qname "contentSet"))
  cs.children.foldlM content_set_step item

/-- `parse_item`: required `guid`/`version` attributes become the identity
fields, then item meta, content meta and rights info; the classification
predicate on the partially built record picks the package or the
atomic-content branch. -/
def parse_item (env : Env) (tree : Xml) : Except PyErr Item := do
  let g ← tree.getAttr "guid"
  let v ← tree.getAttr "version"
  let item : Item := { guid := g ++ ":" ++ v, uri := g, version := v }
  let item ← parse_item_meta env tree item
  let item ← parse_content_meta env tree item
  let item := parse_rights_info tree item
  if env.is_normal_package item then
    parse_group_set tree item
  else
    parse_content_set tree item

/-- One iteration of the item loop of `parse`: parse the item subtree,
attach the header priority, append. -/
def parse_one (env : Env) (priority : Int) (items : List Item) (item_tree : Xml) :
    Except PyErr (List Item) := do
  let item ← parse_item env item_tree
  pure (items ++ [{ item with priority := some priority }])

/-- The `try` body of `parse`: header first, then every child of every
`itemSet` child through `parse_item`, each receiving the header's
priority, appended in document order. -/
def parseBody (env : Env) (xml : Xml) : Except PyErr (List Item) := do
  let priority ← parse_header env xml
  (xml.findall (qname "itemSet")).foldlM (fun items item_set =>
    item_set.children.foldlM (parse_one env priority) items) []

/-- `parse`: any exception from the body is wrapped once into a
`ParserError` carrying the cause and the provider context. -/
def parse (env : Env) (xml : Xml) (provider : Option String := none) :
    Except ParserError (List Item) :=
  match parseBody env xml with
  | .ok items => .ok items
  | .error e => .error { cause := e, provider := provider }

end NewsMLTwoFeedParser

/-- The crop dict handed to `get_crop_size` (`apps/picture_crop`): the four
rectangle keys are required (`crop['CropRight']` etc. would raise
otherwise), `width`/`height` optional.  Numeric values are modelled as
exact rationals, so Python's true division is exact `ℚ` division. -/
structure Crop where
  CropLeft : ℚ
  CropRight : ℚ
  CropTop : ℚ
  CropBottom : ℚ
  width : Option ℚ := none
  height : Option ℚ := none
deriving DecidableEq, Repr

/-- The size dict returned by `get_crop_size`. -/
structure CSize where
  width : ℚ
  height : ℚ
deriving DecidableEq, Repr

/-- Python `a / b` on numbers: `ZeroDivisionError` on a zero divisor, else
the exact quotient. -/
def pydivQ (a b : ℚ) : Except PyErr ℚ :=
  if b = 0 then .error .zeroDivisionError else .ok (a / b)

/-- Python `int(x)` on a number: truncation toward zero. -/
def pyint (q : ℚ) : ℤ :=
  if 0 ≤ q then ⌊q⌋ else ⌈q⌉

namespace PictureCrop

/-- `get_crop_size`: compute the size from the crop rectangle (explicit
`width`/`height` win), and when the crop's aspect ratio differs from the
size's, reassign `CropRight`/`CropBottom` from the top-left corner using
the size ratio.  The mutated crop dict is returned alongside the size. -/
def get_crop_size (crop : Crop) : Except PyErr (CSize × Crop) := do
  let crop_width := crop.CropRight - crop.CropLeft
  let crop_height := crop.CropBottom - crop.CropTop
  let size : CSize := { width := crop.width.getD crop_width,
                        height := crop.height.getD crop_height }
  let crop_ratio ← pydivQ crop_height crop_width
  let size_ratio ← pydivQ size.height size.width
  if crop_ratio ≠ size_ratio then do
    let cw ← pydivQ crop_height size_ratio
    let cwi : ℤ := pyint cw
    let chi : ℤ := pyint ((cwi : ℚ) * size_ratio)
    pure (size, { crop with CropRight := crop.CropLeft + (cwi : ℚ),
                            CropBottom := crop.CropTop + (chi : ℚ) })
  else
    pure (size, crop)

end PictureCrop

deriving instance DecidableEq for Except

lemma exBind_ok {α β : Type} {e : Except PyErr α} {k : α → Except PyErr β} {r : β} :
    e >>= k = .ok r ↔ ∃ a, e = .ok a ∧ k a = .ok r := by
  cases e <;> simp [Bind.bind, Except.bind]

lemma exBind_error {α β : Type} {e : Except PyErr α} {k : α → Except PyErr β} {er : PyErr} :
    e >>= k = .error er ↔ e = .error er ∨ ∃ a, e = .ok a ∧ k a = .error er := by
  cases e <;> simp [Bind.bind, Except.bind]

lemma exPure_eq_ok {α : Type} (a : α) : (pure a : Except PyErr α) = .ok a := rfl

lemma exBind_ok_reduce {α β : Type} (a : α) (k : α → Except PyErr β) :
    (Except.ok a >>= k) = k a := rfl

lemma exBind_error_reduce {α β : Type} (e : PyErr) (k : α → Except PyErr β) :
    ((Except.error e : Except PyErr α) >>= k) = .error e := rfl

lemma needA_ok {α : Type} {o : Option α} {a : α} : needA o = .ok a ↔ o = some a := by
  cases o <;> simp [needA]

lemma needT_ok {α : Type} {o : Option α} {a : α} : needT o = .ok a ↔ o = some a := by
  cases o <;> simp [needT]

lemma getAttr_ok {x : Xml} {k v : String} : x.getAttr k = .ok v ↔ x.attribGet k = some v := by
  unfold Xml.getAttr
  cases x.attribGet k <;> simp

namespace NewsMLTwoFeedParser

lemma getAttr_of {x : Xml} {k v : String} (h : x.attribGet k = some v) : x.getAttr k = .ok v :=
  getAttr_ok.mpr h

/-- C2 (amended): for a remote content-set child, the rendition entry has
reference id equal to the `residref` attribute exactly as it appears
(no version suffix is ever appended, whether or not a `version` attribute
is present), size equal to the parsed `size` attribute defaulting to `"0"`
when absent, rendition key equal to the second colon-separated segment of
the `rendition` attribute, mime type equal to the `contenttype` attribute,
and href equal to the `href` attribute or absent. -/
theorem remote_content_fields : ∀ (t : Xml) (sz : Int) (rend r mt : String),
    pyInt ((t.attribGet "size").getD "0") = .ok sz →
    t.attribGet "rendition" = some rend →
    splitIdx1 ':' rend = .ok r →
    t.attribGet "contenttype" = some mt →
    parse_remote_content t =
      .ok { residRef := t.attribGet "residref", sizeinbytes := sz, rendition := r,
            mimetype := mt, href := t.attribGet "href" } := by
  intro t sz rend r mt hsz hrend hr hmt
  simp [parse_remote_content, Bind.bind, Except.bind, hsz, getAttr_of hrend, hr,
    getAttr_of hmt, exPure_eq_ok]

/-- A concrete remote-content element carrying both `residref="X"` and
`version="2"`. -/
def c2content : Xml := .elem (qname "remoteContent")
  [("residref", "X"), ("version", "2"), ("rendition", "rendition:original"),
   ("contenttype", "image/jpeg"), ("size", "1024"), ("href", "http://example/h")]
  none []

/-- C2 (counterexample): on an element whose `version` attribute is `"2"`,
`parse_remote_content` still yields reference id `"X"`, not the
version-suffixed `"X:2"` the claim requires. -/
theorem remote_content_no_version_suffix :
    parse_remote_content c2content =
      .ok { residRef := some "X", sizeinbytes := 1024, rendition := "original",
            mimetype := "image/jpeg", href := some "http://example/h" } ∧
    c2content.attribGet "version" = some "2" ∧
    some "X" ≠ some ("X" ++ ":" ++ "2") := by
  refine ⟨by decide, by decide, by decide⟩

/-- C2 (witness): the amended theorem applied to the concrete element. -/
theorem remote_content_fields_witness :
    parse_remote_content c2content =
      .ok { residRef := c2content.attribGet "residref", sizeinbytes := 1024,
            rendition := "original", mimetype := "image/jpeg",
            href := c2content.attribGet "href" } :=
  remote_content_fields c2content 1024 "rendition:original" "original" "image/jpeg"
    (by decide) (by decide) (by decide) (by decide)

end NewsMLTwoFeedParser

namespace NewsMLTwoFeedParser

/-- The selection rule of the subject extractor, per subject child: a
`qcode` splitting on `:` into exactly two segments, first `subj`, second
resolving in the vocabulary table, yields a `{code, name}` entry. -/
def subjPick (env : Env) (s : Xml) : Option SubjEntry :=
  match pysplit ':' ((s.attribGet "qcode").getD "") with
  | [p0, p1] =>
    if p0 = "subj" then (env.subject_codes p1).map (fun nm => { qcode := p1, name := nm })
    else none
  | _ => none

lemma subject_fold_aux (env : Env) (l : List Xml) : ∀ acc : List SubjEntry,
    l.foldl (fun acc subject =>
      match pysplit ':' ((subject.attribGet "qcode").getD "") with
      | [p0, p1] =>
        if p0 = "subj" then
          match env.subject_codes p1 with
          | some nm => acc ++ [{ qcode := p1, name := nm }]
          | none => acc
        else acc
      | _ => acc) acc
    = acc ++ l.filterMap (subjPick env) := by
  induction l with
  | nil => simp
  | cons s t ih =>
    intro acc
    rw [List.foldl_cons, List.filterMap_cons]
    rcases hsp : pysplit ':' ((s.attribGet "qcode").getD "") with _ | ⟨p0, _ | ⟨p1, _ | ⟨p2, r⟩⟩⟩ <;>
      simp only [subjPick, hsp]
    · exact ih acc
    · exact ih acc
    · by_cases h0 : p0 = "subj"
      · rcases hsc : env.subject_codes p1 with _ | nm <;>
          simp only [h0, if_true, hsc, Option.map_none', Option.map_some']
        · exact ih acc
        · rw [ih]
          simp
      · simp only [h0, if_false]
        exact ih acc
    · exact ih acc

/-- Full characterization of `parse_content_subject`: it only replaces the
`subject` field, with the filter-map of the subject children. -/
lemma parse_content_subject_spec (env : Env) (tree : Xml) (item : Item) :
    parse_content_subject env tree item =
      { item with subject := (tree.findall (qname "subject")).filterMap (subjPick env) } := by
  unfold parse_content_subject
  rw [subject_fold_aux]
  simp

/-- C6: the subjects list holds exactly the subject children whose `qcode`
splits on `:` into two segments, the first being `subj` and the second
resolving in the vocabulary table, in source order, as `{code, name}`
entries with the name from the table; unresolved codes are skipped without
failing (`parse_content_subject` is total). -/
theorem subject_list_spec : ∀ (env : Env) (tree : Xml) (item : Item),
    (parse_content_subject env tree item).subject =
      (tree.findall (qname "subject")).filterMap (subjPick env) ∧
    ∀ e ∈ (parse_content_subject env tree item).subject,
      env.subject_codes e.qcode = some e.name := by
  intro env tree item
  rw [parse_content_subject_spec]
  refine ⟨rfl, ?_⟩
  intro e he
  simp only [List.mem_filterMap] at he
  obtain ⟨s, _, hpick⟩ := he
  unfold subjPick at hpick
  rcases hsp : pysplit ':' ((s.attribGet "qcode").getD "") with _ | ⟨p0, _ | ⟨p1, _ | ⟨p2, r⟩⟩⟩ <;>
    rw [hsp] at hpick
  · exact absurd hpick (by simp)
  · exact absurd hpick (by simp)
  · have hpick2 : (if p0 = "subj" then
        (env.subject_codes p1).map (fun nm => ({ qcode := p1, name := nm } : SubjEntry))
      else none) = some e := hpick
    by_cases h0 : p0 = "subj"
    · rw [if_pos h0] at hpick2
      rcases hsc : env.subject_codes p1 with _ | nm <;> rw [hsc] at hpick2
      · exact absurd hpick2 (by simp)
      · simp only [Option.map_some', Option.some_inj] at hpick2
        subst hpick2
        simpa using hsc
    · rw [if_neg h0] at hpick2
      exact absurd hpick2 (by simp)
  · exact absurd hpick (by simp)

end NewsMLTwoFeedParser

namespace NewsMLTwoFeedParser

/-- The place-list a single qualifying subject produces, following the
spec's wording: its own name (name child text, else the `literal`
attribute), followed by its `broader` child's name when that child is
present. -/
def placeEntries (s : Xml) : List PlaceEntry :=
  match s.find (qname "broader") with
  | some b => [PlaceEntry.mk (get_literal_name s), PlaceEntry.mk (get_literal_name b)]
  | none => [PlaceEntry.mk (get_literal_name s)]

/-- The Boolean form of the geographic-place filter of `placeStep`. -/
def isPlaceSubject (s : Xml) : Bool :=
  (s.attribGet "type").getD "" = "cptType:5"

lemma placeStep_of_pos {it : Item} {s : Xml} (h : isPlaceSubject s = true) :
    placeStep it s = { it with place := some (placeEntries s) } := by
  have h' : (s.attribGet "type").getD "" = "cptType:5" := by
    simpa [isPlaceSubject] using h
  unfold placeStep placeEntries
  rw [if_pos h']
  cases s.find (qname "broader") <;> rfl

lemma placeStep_of_neg {it : Item} {s : Xml} (h : ¬ isPlaceSubject s = true) :
    placeStep it s = it := by
  have h' : ¬ (s.attribGet "type").getD "" = "cptType:5" := by
    simpa [isPlaceSubject] using h
  unfold placeStep
  rw [if_neg h']

lemma place_fold_aux : ∀ (l : List Xml) (it : Item),
    l.foldl placeStep it =
      { it with place :=
          match (l.filter isPlaceSubject).getLast? with
          | none => it.place
          | some s => some (placeEntries s) } := by
  intro l
  induction l with
  | nil => intro it; simp
  | cons s t ih =>
    intro it
    rw [List.foldl_cons]
    by_cases hq : isPlaceSubject s = true
    · rw [placeStep_of_pos hq, ih, List.filter_cons_of_pos hq]
      rcases hft : (t.filter isPlaceSubject).getLast? with _ | s'
      · rw [List.getLast?_eq_none_iff] at hft
        rw [hft]
        simp
      · rcases hcons : t.filter isPlaceSubject with _ | ⟨x, xs⟩
        · rw [hcons] at hft
          simp at hft
        · rw [hcons] at hft
          rw [List.getLast?_cons_cons, hft]
    · rw [placeStep_of_neg hq, ih, List.filter_cons_of_neg hq]

/-- Full characterization of `parse_content_place`: only the `place` field
changes, and only when at least one geographic-place subject exists, in
which case it reflects the last such subject. -/
lemma parse_content_place_spec (tree : Xml) (item : Item) :
    parse_content_place tree item =
      { item with place :=
          match ((tree.findall (qname "subject")).filter isPlaceSubject).getLast? with
          | none => item.place
          | some s => some (placeEntries s) } := by
  unfold parse_content_place
  exact place_fold_aux _ item

/-- C7: the place list is populated only from subject children whose
`type` attribute is the geographic-place structural type `cptType:5`;
with several such subjects only the last one processed survives (each
qualifying subject resets the list), the surviving list being the
subject's own name (name child text, else `literal` attribute) followed by
its `broader` child's name when present — hence 1 or 2 entries, and no
change at all (0 entries added) when no subject qualifies. -/
theorem place_last_write_wins : ∀ (tree : Xml) (item : Item),
    ((parse_content_place tree item).place =
      match ((tree.findall (qname "subject")).filter isPlaceSubject).getLast? with
      | none => item.place
      | some s => some (placeEntries s)) ∧
    (∀ s : Xml, (placeEntries s).length = 1 ∨ (placeEntries s).length = 2) := by
  intro tree item
  constructor
  · rw [parse_content_place_spec]
  · intro s
    unfold placeEntries
    cases s.find (qname "broader")
    · left; rfl
    · right; rfl

end NewsMLTwoFeedParser

namespace NewsMLTwoFeedParser

/-- Full characterization of `parse_rights_info`: only `usageterms`
changes — to the `usageTerms` text (or `''` when that element is absent)
when a `rightsInfo` element exists, untouched otherwise. -/
lemma parse_rights_info_spec (tree : Xml) (item : Item) :
    parse_rights_info tree item =
      { item with usageterms :=
          match tree.find (qname "rightsInfo") with
          | none => item.usageterms
          | some info =>
            some (match info.find (qname "usageTerms") with
              | some e => e.text
              | none => some "") } := by
  unfold parse_rights_info
  cases tree.find (qname "rightsInfo")
  · rfl
  · rfl

/-- The item fields the two metadata extractors never touch (identity,
structural-shape fields and rights). -/
def MetaFrame (i i' : Item) : Prop :=
  i'.guid = i.guid ∧ i'.uri = i.uri ∧ i'.version = i.version ∧ i'.groups = i.groups ∧
  i'.renditions = i.renditions ∧ i'.body_html = i.body_html ∧ i'.word_count = i.word_count ∧
  i'.format = i.format ∧ i'.usageterms = i.usageterms

lemma parse_item_meta_frame {env : Env} {tree : Xml} {i i' : Item}
    (h : parse_item_meta env tree i = .ok i') : MetaFrame i i' := by
  unfold parse_item_meta at h
  rw [exBind_ok] at h; obtain ⟨meta, _, h⟩ := h
  rw [exBind_ok] at h; obtain ⟨ic, _, h⟩ := h
  rw [exBind_ok] at h; obtain ⟨icq, _, h⟩ := h
  rw [exBind_ok] at h; obtain ⟨ty, _, h⟩ := h
  rw [exBind_ok] at h; obtain ⟨vcEl, _, h⟩ := h
  rw [exBind_ok] at h; obtain ⟨vc, _, h⟩ := h
  rw [exBind_ok] at h; obtain ⟨fcEl, _, h⟩ := h
  rw [exBind_ok] at h; obtain ⟨fc, _, h⟩ := h
  rw [exBind_ok] at h; obtain ⟨psEl, _, h⟩ := h
  rw [exBind_ok] at h; obtain ⟨psq, _, h⟩ := h
  rw [exBind_ok] at h; obtain ⟨ps, _, h⟩ := h
  simp only [exPure_eq_ok, Except.ok.injEq] at h
  subst h
  exact ⟨rfl, rfl, rfl, rfl, rfl, rfl, rfl, rfl, rfl⟩

lemma parse_urgency_frame {meta : Xml} {i i' : Item}
    (h : parse_urgency meta i = .ok i') : MetaFrame i i' := by
  unfold parse_urgency at h
  rcases hu : meta.find (qname "urgency") with _ | uel <;> rw [hu] at h
  · simp only [exPure_eq_ok, Except.ok.injEq] at h
    subst h
    exact ⟨rfl, rfl, rfl, rfl, rfl, rfl, rfl, rfl, rfl⟩
  · rw [exBind_ok] at h; obtain ⟨n, _, h⟩ := h
    simp only [exPure_eq_ok, Except.ok.injEq] at h
    subst h
    exact ⟨rfl, rfl, rfl, rfl, rfl, rfl, rfl, rfl, rfl⟩

lemma content_meta_scalars_frame (meta : Xml) (i : Item) :
    MetaFrame i (content_meta_scalars meta i) :=
  ⟨rfl, rfl, rfl, rfl, rfl, rfl, rfl, rfl, rfl⟩

lemma content_meta_description_frame (meta : Xml) (i : Item) :
    MetaFrame i (content_meta_description meta i) := by
  unfold content_meta_description
  rcases meta.find (qname "description") with _ | el <;>
    exact ⟨rfl, rfl, rfl, rfl, rfl, rfl, rfl, rfl, rfl⟩

lemma content_meta_language_frame (meta : Xml) (i : Item) :
    MetaFrame i (content_meta_language meta i) := by
  unfold content_meta_language
  rcases meta.find (qname "language") with _ | el <;>
    exact ⟨rfl, rfl, rfl, rfl, rfl, rfl, rfl, rfl, rfl⟩

lemma content_meta_infosource_frame (meta : Xml) (i : Item) :
    MetaFrame i (content_meta_infosource meta i) := by
  unfold content_meta_infosource
  split <;> exact ⟨rfl, rfl, rfl, rfl, rfl, rfl, rfl, rfl, rfl⟩

lemma content_meta_genre_frame (meta : Xml) (i : Item) :
    MetaFrame i (content_meta_genre meta i) :=
  ⟨rfl, rfl, rfl, rfl, rfl, rfl, rfl, rfl, rfl⟩

lemma parse_content_subject_frame (env : Env) (meta : Xml) (i : Item) :
    MetaFrame i (parse_content_subject env meta i) :=
  ⟨rfl, rfl, rfl, rfl, rfl, rfl, rfl, rfl, rfl⟩

lemma parse_content_place_frame (meta : Xml) (i : Item) :
    MetaFrame i (parse_content_place meta i) := by
  rw [parse_content_place_spec]
  exact ⟨rfl, rfl, rfl, rfl, rfl, rfl, rfl, rfl, rfl⟩

lemma metaFrame_trans {i j k : Item} (h1 : MetaFrame i j) (h2 : MetaFrame j k) :
    MetaFrame i k := by
  obtain ⟨a1, a2, a3, a4, a5, a6, a7, a8, a9⟩ := h1
  obtain ⟨b1, b2, b3, b4, b5, b6, b7, b8, b9⟩ := h2
  exact ⟨b1.trans a1, b2.trans a2, b3.trans a3, b4.trans a4, b5.trans a5, b6.trans a6,
    b7.trans a7, b8.trans a8, b9.trans a9⟩

lemma parse_content_meta_frame {env : Env} {tree : Xml} {i i' : Item}
    (h : parse_content_meta env tree i = .ok i') : MetaFrame i i' := by
  unfold parse_content_meta at h
  rw [exBind_ok] at h; obtain ⟨meta, _, h⟩ := h
  rw [exBind_ok] at h; obtain ⟨i1, hi1, h⟩ := h
  simp only [exPure_eq_ok, Except.ok.injEq] at h
  subst h
  refine metaFrame_trans (parse_urgency_frame hi1) ?_
  unfold content_meta_rest
  exact metaFrame_trans (content_meta_scalars_frame _ _)
    (metaFrame_trans (content_meta_description_frame _ _)
      (metaFrame_trans (content_meta_language_frame _ _)
        (metaFrame_trans (parse_content_subject_frame _ _ _)
          (metaFrame_trans (parse_content_place_frame _ _)
            (metaFrame_trans (content_meta_infosource_frame _ _)
              (content_meta_genre_frame _ _))))))

lemma foldlM_inv {α : Type} (P : Item → Prop) {f : Item → α → Except PyErr Item}
    (hf : ∀ it a it', P it → f it a = .ok it' → P it') :
    ∀ (l : List α) (it it' : Item), P it → l.foldlM f it = .ok it' → P it' := by
  intro l
  induction l with
  | nil =>
    intro it it' hP h
    simp only [List.foldlM_nil, exPure_eq_ok, Except.ok.injEq] at h
    exact h ▸ hP
  | cons a t ih =>
    intro it it' hP h
    rw [List.foldlM_cons, exBind_ok] at h
    obtain ⟨m, hm, h⟩ := h
    exact ih m it' (hf it a m hP hm) h

lemma parse_wordcount_ok {c : Xml} {it it' : Item} (h : parse_wordcount c it = .ok it') :
    ∃ wc, it' = { it with word_count := wc } := by
  unfold parse_wordcount at h
  rcases hw : c.attribGet "wordcount" with _ | w <;> rw [hw] at h
  · simp only [exPure_eq_ok, Except.ok.injEq] at h
    exact ⟨it.word_count, h.symm⟩
  · rw [exBind_ok] at h
    obtain ⟨n, _, h⟩ := h
    simp only [exPure_eq_ok, Except.ok.injEq] at h
    exact ⟨some n, h.symm⟩

lemma content_set_step_pres {it : Item} {c : Xml} {it' : Item}
    (h : content_set_step it c = .ok it') :
    it'.guid = it.guid ∧ it'.uri = it.uri ∧ it'.version = it.version ∧
    it'.groups = it.groups ∧ it'.usageterms = it.usageterms ∧
    (it.renditions.isSome = true → it'.renditions.isSome = true) := by
  unfold content_set_step at h
  by_cases h1 : c.tag = qname "inlineXML"
  · rw [if_pos h1] at h
    rw [exBind_ok] at h; obtain ⟨i1, hw, h⟩ := h
    obtain ⟨wc, rfl⟩ := parse_wordcount_ok hw
    rw [exBind_ok] at h; obtain ⟨cc, _, h⟩ := h
    simp only [exPure_eq_ok, Except.ok.injEq] at h
    subst h
    rcases cc.format with _ | f <;> exact ⟨rfl, rfl, rfl, rfl, rfl, fun hs => hs⟩
  · rw [if_neg h1] at h
    by_cases h2 : c.tag = qname "inlineData"
    · rw [if_pos h2] at h
      obtain ⟨wc, rfl⟩ := parse_wordcount_ok h
      exact ⟨rfl, rfl, rfl, rfl, rfl, fun hs => hs⟩
    · rw [if_neg h2] at h
      rw [exBind_ok] at h; obtain ⟨r, _, h⟩ := h
      simp only [exPure_eq_ok, Except.ok.injEq] at h
      subst h
      exact ⟨rfl, rfl, rfl, rfl, rfl, fun _ => rfl⟩

lemma parse_content_set_ok {tree : Xml} {i i' : Item}
    (h : parse_content_set tree i = .ok i') :
    i'.guid = i.guid ∧ i'.uri = i.uri ∧ i'.version = i.version ∧
    i'.groups = i.groups ∧ i'.usageterms = i.usageterms ∧ i'.renditions.isSome = true := by
  simp only [parse_content_set, exBind_ok] at h
  obtain ⟨cs, _, h⟩ := h
  refine foldlM_inv
    (fun it => it.guid = i.guid ∧ it.uri = i.uri ∧ it.version = i.version ∧
      it.groups = i.groups ∧ it.usageterms = i.usageterms ∧ it.renditions.isSome = true)
    ?_ cs.children { i with renditions := some [] } i' ⟨rfl, rfl, rfl, rfl, rfl, rfl⟩ h
  intro it a it' hP hstep
  obtain ⟨p1, p2, p3, p4, p5, p6⟩ := content_set_step_pres hstep
  exact ⟨p1.trans hP.1, p2.trans hP.2.1, p3.trans hP.2.2.1, p4.trans hP.2.2.2.1,
    p5.trans hP.2.2.2.2.1, p6 hP.2.2.2.2.2⟩

lemma parse_group_set_ok {tree : Xml} {i i' : Item}
    (h : parse_group_set tree i = .ok i') :
    ∃ gs, i' = { i with groups := some gs } := by
  unfold parse_group_set at h
  rw [exBind_ok] at h; obtain ⟨gsEl, _, h⟩ := h
  rw [exBind_ok] at h; obtain ⟨gl, _, h⟩ := h
  simp only [exPure_eq_ok, Except.ok.injEq] at h
  exact ⟨gl, h.symm⟩

end NewsMLTwoFeedParser

namespace NewsMLTwoFeedParser

/-- Decomposition of a successful `parse_item` run into its stages: the
two required identity attributes, the metadata stages, and exactly one of
the two structural branches, selected by the classification predicate
applied to the post-rights, pre-structural record. -/
lemma parse_item_ok {env : Env} {tree : Xml} {i' : Item}
    (h : parse_item env tree = .ok i') :
    ∃ g v i1 i2,
      tree.attribGet "guid" = some g ∧ tree.attribGet "version" = some v ∧
      parse_item_meta env tree { guid := g ++ ":" ++ v, uri := g, version := v } = .ok i1 ∧
      parse_content_meta env tree i1 = .ok i2 ∧
      ((env.is_normal_package (parse_rights_info tree i2) = true ∧
          parse_group_set tree (parse_rights_info tree i2) = .ok i') ∨
        (env.is_normal_package (parse_rights_info tree i2) = false ∧
          parse_content_set tree (parse_rights_info tree i2) = .ok i')) := by
  simp only [parse_item, exBind_ok] at h
  obtain ⟨g, hg, v, hv, i1, h1, i2, h2, h⟩ := h
  refine ⟨g, v, i1, i2, getAttr_ok.mp hg, getAttr_ok.mp hv, h1, h2, ?_⟩
  by_cases hp : env.is_normal_package (parse_rights_info tree i2) = true
  · rw [if_pos hp] at h
    exact Or.inl ⟨hp, h⟩
  · rw [if_neg hp] at h
    rw [Bool.not_eq_true] at hp
    exact Or.inr ⟨hp, h⟩

lemma parse_rights_info_prefields (tree : Xml) (i : Item) :
    (parse_rights_info tree i).guid = i.guid ∧ (parse_rights_info tree i).uri = i.uri ∧
    (parse_rights_info tree i).version = i.version ∧
    (parse_rights_info tree i).groups = i.groups ∧
    (parse_rights_info tree i).renditions = i.renditions ∧
    (parse_rights_info tree i).body_html = i.body_html := by
  rw [parse_rights_info_spec]
  exact ⟨rfl, rfl, rfl, rfl, rfl, rfl⟩

/-- C3: every successfully parsed item has `guid = guid-attribute + ":" +
version-attribute`, `uri` the bare guid attribute and `version` the
version attribute; when either attribute is missing on the item element,
parsing of that item fails. -/
theorem guid_uri_version : ∀ (env : Env) (tree : Xml),
    (∀ item : Item, parse_item env tree = .ok item →
      ∃ g v, tree.attribGet "guid" = some g ∧ tree.attribGet "version" = some v ∧
        item.guid = g ++ ":" ++ v ∧ item.uri = g ∧ item.version = v) ∧
    ((tree.attribGet "guid" = none ∨ tree.attribGet "version" = none) →
      ∃ e, parse_item env tree = .error e) := by
  intro env tree
  constructor
  · intro item h
    obtain ⟨g, v, i1, i2, hg, hv, h1, h2, hbr⟩ := parse_item_ok h
    have f1 := parse_item_meta_frame h1
    have f2 := parse_content_meta_frame h2
    have f3 := parse_rights_info_prefields tree i2
    refine ⟨g, v, hg, hv, ?_⟩
    rcases hbr with ⟨_, hgr⟩ | ⟨_, hct⟩
    · obtain ⟨gs, rfl⟩ := parse_group_set_ok hgr
      exact ⟨f3.1.trans (f2.1.trans f1.1), f3.2.1.trans (f2.2.1.trans f1.2.1),
        f3.2.2.1.trans (f2.2.2.1.trans f1.2.2.1)⟩
    · obtain ⟨c1, c2, c3, _, _, _⟩ := parse_content_set_ok hct
      exact ⟨(c1.trans f3.1).trans (f2.1.trans f1.1),
        (c2.trans f3.2.1).trans (f2.2.1.trans f1.2.1),
        (c3.trans f3.2.2.1).trans (f2.2.2.1.trans f1.2.2.1)⟩
  · intro hmiss
    rcases hmiss with hm | hm
    · exact ⟨.keyError, by simp [parse_item, Bind.bind, Except.bind, Xml.getAttr, hm]⟩
    · rcases hg2 : tree.attribGet "guid" with _ | g
      · exact ⟨.keyError, by simp [parse_item, Bind.bind, Except.bind, Xml.getAttr, hg2]⟩
      · exact ⟨.keyError,
          by simp [parse_item, Bind.bind, Except.bind, Xml.getAttr, hg2, hm]⟩

end NewsMLTwoFeedParser

namespace NewsMLTwoFeedParser

/-- C4: a successfully parsed item is in exactly one shape — the
classification predicate, applied once to the record obtained after the
metadata stages (item meta, content meta, rights info) and before any
structural parsing, selects either the package branch (a `groups` field is
present; `renditions` and `body_html` keys absent) or the atomic-content
branch (`renditions` present, `groups` absent) — and never both a `groups`
field and a `renditions`/`body_html` field. -/
theorem item_shape_xor : ∀ (env : Env) (tree : Xml) (item : Item),
    parse_item env tree = .ok item →
    ∃ pre : Item,
      (∃ g v i1 i2,
        tree.attribGet "guid" = some g ∧ tree.attribGet "version" = some v ∧
        parse_item_meta env tree { guid := g ++ ":" ++ v, uri := g, version := v } = .ok i1 ∧
        parse_content_meta env tree i1 = .ok i2 ∧ pre = parse_rights_info tree i2) ∧
      (env.is_normal_package pre = true →
        parse_group_set tree pre = .ok item ∧ item.groups.isSome = true ∧
        item.renditions = none ∧ item.body_html = none) ∧
      (env.is_normal_package pre = false →
        parse_content_set tree pre = .ok item ∧ item.groups = none ∧
        item.renditions.isSome = true) ∧
      ¬(item.groups.isSome = true ∧
        (item.renditions.isSome = true ∨ item.body_html.isSome = true)) := by
  intro env tree item h
  obtain ⟨g, v, i1, i2, hg, hv, h1, h2, hbr⟩ := parse_item_ok h
  have f1 := parse_item_meta_frame h1
  have f2 := parse_content_meta_frame h2
  have f3 := parse_rights_info_prefields tree i2
  have hpre_rend : (parse_rights_info tree i2).renditions = none :=
    f3.2.2.2.2.1.trans (f2.2.2.2.2.1.trans f1.2.2.2.2.1)
  have hpre_body : (parse_rights_info tree i2).body_html = none :=
    f3.2.2.2.2.2.trans (f2.2.2.2.2.2.1.trans f1.2.2.2.2.2.1)
  have hpre_groups : (parse_rights_info tree i2).groups = none :=
    f3.2.2.2.1.trans (f2.2.2.2.1.trans f1.2.2.2.1)
  refine ⟨parse_rights_info tree i2, ⟨g, v, i1, i2, hg, hv, h1, h2, rfl⟩, ?_, ?_, ?_⟩
  · intro hp
    rcases hbr with ⟨_, hgr⟩ | ⟨hnp, _⟩
    · obtain ⟨gs, rfl⟩ := parse_group_set_ok hgr
      exact ⟨hgr, rfl, hpre_rend, hpre_body⟩
    · rw [hp] at hnp
      exact absurd hnp (by simp)
  · intro hp
    rcases hbr with ⟨hnp, _⟩ | ⟨_, hct⟩
    · rw [hp] at hnp
      exact absurd hnp (by simp)
    · obtain ⟨c1, c2, c3, c4, c5, c6⟩ := parse_content_set_ok hct
      exact ⟨hct, c4.trans hpre_groups, c6⟩
  · rintro ⟨hgroups, hrb⟩
    rcases hbr with ⟨_, hgr⟩ | ⟨_, hct⟩
    · obtain ⟨gs, rfl⟩ := parse_group_set_ok hgr
      rcases hrb with hr | hb
      · rw [show ({ parse_rights_info tree i2 with
            groups := some gs } : Item).renditions = none from hpre_rend] at hr
        simp at hr
      · rw [show ({ parse_rights_info tree i2 with
            groups := some gs } : Item).body_html = none from hpre_body] at hb
        simp at hb
    · obtain ⟨c1, c2, c3, c4, c5, c6⟩ := parse_content_set_ok hct
      rw [c4.trans hpre_groups] at hgroups
      simp at hgroups

/-- C8: when the item subtree has a `rightsInfo` block whose `usageTerms`
element is absent, the parsed item's usage-terms value is the empty
string; when there is no `rightsInfo` block at all, the usage-terms key is
absent from the parsed item. -/
theorem usage_terms_default : ∀ (env : Env) (tree : Xml) (item : Item),
    parse_item env tree = .ok item →
    (tree.find (qname "rightsInfo") = none → item.usageterms = none) ∧
    (∀ info, tree.find (qname "rightsInfo") = some info →
      info.find (qname "usageTerms") = none → item.usageterms = some (some "")) := by
  intro env tree item h
  obtain ⟨g, v, i1, i2, hg, hv, h1, h2, hbr⟩ := parse_item_ok h
  have f1 := parse_item_meta_frame h1
  have f2 := parse_content_meta_frame h2
  have hi2 : i2.usageterms = none := f2.2.2.2.2.2.2.2.2.trans f1.2.2.2.2.2.2.2.2
  have hitem : item.usageterms = (parse_rights_info tree i2).usageterms := by
    rcases hbr with ⟨_, hgr⟩ | ⟨_, hct⟩
    · obtain ⟨gs, rfl⟩ := parse_group_set_ok hgr
      rfl
    · exact (parse_content_set_ok hct).2.2.2.2.1
  rw [hitem, parse_rights_info_spec]
  constructor
  · intro hnone
    rw [hnone]
    exact hi2
  · intro info hinfo hut
    simp only [hinfo, hut]

end NewsMLTwoFeedParser

namespace NewsMLTwoFeedParser

/-- A concrete environment for witnesses: fixed priority mapping, identity
timestamp normalizer, atomic-content classification, one-entry vocabulary. -/
def fxEnv : Env where
  map_priority := fun _ => 3
  dtf := fun t => .ok (t.getD "")
  is_normal_package := fun _ => false
  subject_codes := fun c =>
    if c = "15000000" then some "Arts, Culture and Entertainment" else none

def fxItemMeta : Xml := .elem (qname "itemMeta") [] none
  [ .elem (qname "itemClass") [("qcode", "ninat:text")] none []
  , .elem (qname "versionCreated") [] (some "2018-01-01T01:02:03.000Z") []
  , .elem (qname "firstCreated") [] (some "2018-01-01T01:02:03.000Z") []
  , .elem (qname "pubStatus") [("qcode", "stat:Usable")] none []
  ]

def fxContentMeta : Xml := .elem (qname "contentMeta") [] none
  [ .elem (qname "subject") [("qcode", "subj:15000000")] none []
  , .elem (qname "subject") [("qcode", "subj:99999999")] none []
  ]

def fxContentSet : Xml := .elem (qname "contentSet") [] none
  [ .elem (qname "remoteContent")
      [("residref", "X"), ("version", "2"), ("rendition", "rendition:original"),
       ("contenttype", "image/jpeg"), ("size", "1024")] none [] ]

/-- A complete well-formed atomic-content item subtree. -/
def fxItemTree : Xml := .elem (qname "newsItem") [("guid", "abc"), ("version", "1")] none
  [fxItemMeta, fxContentMeta, fxContentSet]

/-- The record `parse_item` produces for `fxItemTree` under `fxEnv`. -/
def fxItem : Item :=
  { guid := "abc:1", uri := "abc", version := "1", itemType := "text",
    versioncreated := "2018-01-01T01:02:03.000Z",
    firstcreated := "2018-01-01T01:02:03.000Z", pubstatus := "usable",
    subject := [SubjEntry.mk "15000000" "Arts, Culture and Entertainment"],
    renditions := some [("original",
      Rendition.mk (some "X") 1024 "original" "image/jpeg" none)] }

/-- The same item subtree with a `rightsInfo` block lacking `usageTerms`. -/
def fxRightsTree : Xml := .elem (qname "newsItem") [("guid", "abc"), ("version", "1")] none
  [fxItemMeta, fxContentMeta, .elem (qname "rightsInfo") [] none [], fxContentSet]

def fxRightsItem : Item := { fxItem with usageterms := some (some "") }

/-- An item subtree missing the required `guid` attribute. -/
def fxBadTree : Xml := .elem (qname "newsItem") [("version", "1")] none
  [fxItemMeta, fxContentMeta, fxContentSet]

/-- C3 (witness): the identity theorem applied to a concrete well-formed
item subtree and to one missing its `guid` attribute. -/
theorem guid_uri_version_witness :
    (∃ g v, fxItemTree.attribGet "guid" = some g ∧ fxItemTree.attribGet "version" = some v ∧
      fxItem.guid = g ++ ":" ++ v ∧ fxItem.uri = g ∧ fxItem.version = v) ∧
    (∃ e, parse_item fxEnv fxBadTree = .error e) :=
  ⟨(guid_uri_version fxEnv fxItemTree).1 fxItem (by decide),
   (guid_uri_version fxEnv fxBadTree).2 (Or.inl (by decide))⟩

/-- C4 (witness): the shape theorem applied to the concrete atomic-content
item. -/
theorem item_shape_xor_witness :
    ∃ pre : Item,
      (∃ g v i1 i2,
        fxItemTree.attribGet "guid" = some g ∧ fxItemTree.attribGet "version" = some v ∧
        parse_item_meta fxEnv fxItemTree
          { guid := g ++ ":" ++ v, uri := g, version := v } = .ok i1 ∧
        parse_content_meta fxEnv fxItemTree i1 = .ok i2 ∧
        pre = parse_rights_info fxItemTree i2) ∧
      (fxEnv.is_normal_package pre = true →
        parse_group_set fxItemTree pre = .ok fxItem ∧ fxItem.groups.isSome = true ∧
        fxItem.renditions = none ∧ fxItem.body_html = none) ∧
      (fxEnv.is_normal_package pre = false →
        parse_content_set fxItemTree pre = .ok fxItem ∧ fxItem.groups = none ∧
        fxItem.renditions.isSome = true) ∧
      ¬(fxItem.groups.isSome = true ∧
        (fxItem.renditions.isSome = true ∨ fxItem.body_html.isSome = true)) :=
  item_shape_xor fxEnv fxItemTree fxItem (by decide)

/-- C8 (witness): the usage-terms theorem applied to an item without any
`rightsInfo` block and to one whose `rightsInfo` block has no `usageTerms`
element. -/
theorem usage_terms_default_witness :
    fxItem.usageterms = none ∧ fxRightsItem.usageterms = some (some "") :=
  ⟨(usage_terms_default fxEnv fxItemTree fxItem (by decide)).1 (by rfl),
   (usage_terms_default fxEnv fxRightsTree fxRightsItem (by decide)).2
     (.elem (qname "rightsInfo") [] none []) (by rfl) (by rfl)⟩

end NewsMLTwoFeedParser

namespace NewsMLTwoFeedParser

/-- The item trees of a document, in source order: every child of every
`itemSet` child of the message element. -/
def itemTrees (xml : Xml) : List Xml :=
  (xml.findall (qname "itemSet")).flatMap Xml.children

lemma parse_inner_fold (env : Env) (pr : Int) : ∀ (l : List Xml) (acc : List Item),
    l.foldlM (parse_one env pr) acc
    = (l.mapM (parse_item env)).map
        (fun its => acc ++ its.map (fun it => { it with priority := some pr })) := by
  intro l
  induction l with
  | nil =>
    intro acc
    rw [List.foldlM_nil, List.mapM_nil]
    simp [Except.map, exPure_eq_ok]
  | cons t ts ih =>
    intro acc
    rw [List.foldlM_cons, List.mapM_cons]
    cases hpi : parse_item env t with
    | error e =>
      simp [parse_one, hpi, Bind.bind, Except.bind, Except.map]
    | ok it =>
      simp only [parse_one, hpi, Bind.bind, Except.bind, exPure_eq_ok]
      rw [ih]
      cases hts : ts.mapM (parse_item env) with
      | error e => simp [hts, Bind.bind, Except.bind, Except.map]
      | ok rest => simp [hts, Bind.bind, Except.bind, Except.map, exPure_eq_ok]

lemma parse_outer_fold (env : Env) (pr : Int) : ∀ (ls : List Xml) (acc : List Item),
    ls.foldlM (fun items item_set => item_set.children.foldlM (parse_one env pr) items) acc
    = ((ls.flatMap Xml.children).mapM (parse_item env)).map
        (fun its => acc ++ its.map (fun it => { it with priority := some pr })) := by
  intro ls
  induction ls with
  | nil =>
    intro acc
    rw [List.foldlM_nil, List.flatMap_nil, List.mapM_nil]
    simp [Except.map, exPure_eq_ok]
  | cons s ss ih =>
    intro acc
    rw [List.foldlM_cons]
    cases hcs : s.children.mapM (parse_item env) with
    | error e =>
      rw [show s.children.foldlM (parse_one env pr) acc = Except.error e from by
        rw [parse_inner_fold, hcs]; rfl]
      simp only [List.flatMap_cons, List.mapM_append, hcs]
      simp [Bind.bind, Except.bind, Except.map]
    | ok its1 =>
      rw [show s.children.foldlM (parse_one env pr) acc
          = Except.ok (acc ++ its1.map (fun it => { it with priority := some pr })) from by
        rw [parse_inner_fold, hcs]; rfl]
      simp only [Bind.bind, Except.bind]
      rw [ih]
      simp only [List.flatMap_cons, List.mapM_append, hcs]
      cases hrest : (ss.flatMap Xml.children).mapM (parse_item env) with
      | error e => simp [Bind.bind, Except.bind, Except.map]
      | ok rest => simp [Bind.bind, Except.bind, Except.map, exPure_eq_ok]

/-- Characterization of the whole `parse` run: the header result decides
everything; on success the output is the sequential per-item parse of the
item trees in source order, each with the shared priority attached; any
failure is wrapped once into a `ParserError` with the provider context. -/
lemma parse_spec (env : Env) (xml : Xml) (provider : Option String) :
    parse env xml provider =
      match parse_header env xml with
      | .error e => .error { cause := e, provider := provider }
      | .ok pr =>
        match (itemTrees xml).mapM (parse_item env) with
        | .error e => .error { cause := e, provider := provider }
        | .ok its => .ok (its.map (fun it => { it with priority := some pr })) := by
  unfold parse parseBody itemTrees
  cases hh : parse_header env xml with
  | error e => simp [Bind.bind, Except.bind]
  | ok pr =>
    simp only [Bind.bind, Except.bind]
    rw [parse_outer_fold]
    cases hm : ((xml.findall (qname "itemSet")).flatMap Xml.children).mapM (parse_item env) with
    | error e => simp [Except.map]
    | ok its => simp [Except.map]

lemma mapM_error_mem {f : Xml → Except PyErr Item} :
    ∀ {l : List Xml} {e : PyErr}, l.mapM f = .error e → ∃ t ∈ l, f t = .error e := by
  intro l
  induction l with
  | nil =>
    intro e h
    rw [show List.mapM f ([] : List Xml) = pure [] from rfl, exPure_eq_ok] at h
    simp at h
  | cons t ts ih =>
    intro e h
    rw [List.mapM_cons] at h
    cases hft : f t with
    | error e1 =>
      rw [hft] at h
      simp only [Bind.bind, Except.bind] at h
      cases h
      exact ⟨t, List.mem_cons_self t ts, hft⟩
    | ok b =>
      rw [hft] at h
      simp only [Bind.bind, Except.bind] at h
      cases hts : ts.mapM f with
      | error e2 =>
        rw [hts] at h
        cases h
        obtain ⟨u, hu, hfu⟩ := ih hts
        exact ⟨u, List.mem_cons_of_mem t hu, hfu⟩
      | ok rest =>
        rw [hts] at h
        simp [Bind.bind, Except.bind, exPure_eq_ok] at h

end NewsMLTwoFeedParser

namespace NewsMLTwoFeedParser

/-- C5: for every document, either everything parses — and `parse` returns
exactly the per-item parses of all item subtrees in source document order,
each carrying the shared header priority — or some exception arose while
parsing the header or one of the items, and `parse` returns a single
`ParserError` wrapping that cause and the provider context, with no
partial batch. -/
theorem parse_document_error_policy : ∀ (env : Env) (xml : Xml) (provider : Option String),
    (∃ pr its, parse_header env xml = .ok pr ∧
        (itemTrees xml).mapM (parse_item env) = .ok its ∧
        parse env xml provider = .ok (its.map (fun it => { it with priority := some pr }))) ∨
    (∃ e, parse env xml provider = .error { cause := e, provider := provider } ∧
        (parse_header env xml = .error e ∨
          ∃ t ∈ itemTrees xml, parse_item env t = .error e)) := by
  intro env xml provider
  rw [parse_spec]
  cases hh : parse_header env xml with
  | error e => exact Or.inr ⟨e, rfl, Or.inl rfl⟩
  | ok pr =>
    cases hm : (itemTrees xml).mapM (parse_item env) with
    | error e => exact Or.inr ⟨e, rfl, Or.inr (mapM_error_mem hm)⟩
    | ok its => exact Or.inl ⟨pr, its, rfl, rfl, rfl⟩

/-- C1 (amended): the header priority is 5 when the `header` element is
absent, and the mapped value of the `priority` child's text when both are
present; when the header exists but its `priority` child is absent,
`parse_header` raises (`AttributeError`) instead of defaulting to 5.
Every item of a successful document parse carries the header priority. -/
theorem priority_resolution : ∀ (env : Env) (xml : Xml) (provider : Option String),
    (xml.find (qname "header") = none → parse_header env xml = .ok 5) ∧
    (∀ hd p, xml.find (qname "header") = some hd → hd.find (qname "priority") = some p →
      parse_header env xml = .ok (env.map_priority p.text)) ∧
    (∀ hd, xml.find (qname "header") = some hd → hd.find (qname "priority") = none →
      parse_header env xml = .error .attributeError) ∧
    (∀ pr items, parse_header env xml = .ok pr → parse env xml provider = .ok items →
      ∀ it ∈ items, it.priority = some pr) := by
  intro env xml provider
  refine ⟨?_, ?_, ?_, ?_⟩
  · intro h
    unfold parse_header
    rw [h]
  · intro hd p hh hp
    unfold parse_header
    rw [hh]
    have hgoal : (match hd.find (qname "priority") with
        | none => (Except.error PyErr.attributeError : Except PyErr Int)
        | some q => Except.ok (env.map_priority q.text))
        = Except.ok (env.map_priority p.text) := by
      rw [hp]
    exact hgoal
  · intro hd hh hp
    unfold parse_header
    rw [hh]
    have hgoal : (match hd.find (qname "priority") with
        | none => (Except.error PyErr.attributeError : Except PyErr Int)
        | some q => Except.ok (env.map_priority q.text))
        = Except.error PyErr.attributeError := by
      rw [hp]
    exact hgoal
  · intro pr items hpr hok it hit
    cases hm : (itemTrees xml).mapM (parse_item env) with
    | error e =>
      rw [parse_spec, hpr, hm] at hok
      simp at hok
    | ok its =>
      rw [parse_spec, hpr, hm] at hok
      have hok2 : Except.ok (its.map (fun j => { j with priority := some pr }))
          = Except.ok items := hok
      simp only [Except.ok.injEq] at hok2
      subst hok2
      obtain ⟨j, _, rfl⟩ := List.mem_map.mp hit
      rfl

/-- A document whose header is present but has no `priority` child. -/
def fxDocNoPrio : Xml := .elem (qname "newsMessage") [] none
  [ .elem (qname "header") [] none []
  , .elem (qname "itemSet") [] none [fxItemTree]
  ]

/-- C1 (counterexample): on a document whose header exists without a
`priority` element, `parse` fails with a wrapped `AttributeError` — no
items with default priority 5 are produced, contradicting the claimed
default for the absent-priority-element case. -/
theorem priority_default_counterexample :
    fxDocNoPrio.find (qname "header") = some (.elem (qname "header") [] none []) ∧
    (Xml.elem (qname "header") [] none []).find (qname "priority") = none ∧
    parse fxEnv fxDocNoPrio none = .error { cause := .attributeError, provider := none } := by
  exact ⟨by rfl, by rfl, by decide⟩

def fxPrioElem : Xml := .elem (qname "priority") [] (some "2") []

def fxHeader : Xml := .elem (qname "header") [] none [fxPrioElem]

/-- A complete document: header with priority, one item set, one item. -/
def fxDoc : Xml := .elem (qname "newsMessage") [] none
  [fxHeader, .elem (qname "itemSet") [] none [fxItemTree]]

/-- A document with no header element at all. -/
def fxDocNoHeader : Xml := .elem (qname "newsMessage") [] none
  [ .elem (qname "itemSet") [] none [fxItemTree] ]

/-- C1 (witness): the amended priority theorem applied to concrete
documents — header absent (default 5), header with priority (mapped
value), header without priority (failure), and the parsed item of a full
document carrying the header priority. -/
theorem priority_resolution_witness :
    parse_header fxEnv fxDocNoHeader = .ok 5 ∧
    parse_header fxEnv fxDoc = .ok (fxEnv.map_priority fxPrioElem.text) ∧
    parse_header fxEnv fxDocNoPrio = .error .attributeError ∧
    (∀ it ∈ [{ fxItem with priority := some (3 : Int) }], it.priority = some (3 : Int)) :=
  ⟨(priority_resolution fxEnv fxDocNoHeader none).1 (by rfl),
   (priority_resolution fxEnv fxDoc none).2.1 fxHeader fxPrioElem (by rfl) (by rfl),
   (priority_resolution fxEnv fxDocNoPrio none).2.2.1
     (.elem (qname "header") [] none []) (by rfl) (by rfl),
   (priority_resolution fxEnv fxDoc none).2.2.2 3 [{ fxItem with priority := some (3 : Int) }]
     (by decide) (by decide)⟩

end NewsMLTwoFeedParser

namespace NewsMLTwoFeedParser

lemma parse_wordcount_error {c : Xml} {w : String} {e : PyErr}
    (hw : c.attribGet "wordcount" = some w) (he : pyInt w = .error e) :
    ∀ it : Item, parse_wordcount c it = .error e := by
  intro it
  unfold parse_wordcount
  rw [hw]
  show (do
    let n ← pyInt w
    pure { it with word_count := some n } : Except PyErr Item) = .error e
  rw [he]
  rfl

lemma foldlM_error_of_mem {f : Item → Xml → Except PyErr Item} {c : Xml} :
    ∀ (l : List Xml), c ∈ l → (∀ it : Item, ∃ e, f it c = .error e) →
    ∀ it : Item, ∃ e, l.foldlM f it = .error e := by
  intro l
  induction l with
  | nil =>
    intro hc
    cases hc
  | cons a t ih =>
    intro hc hcf it
    rw [List.foldlM_cons]
    rcases List.mem_cons.mp hc with rfl | hct
    · obtain ⟨e, he⟩ := hcf it
      exact ⟨e, by rw [he]; rfl⟩
    · cases hfa : f it a with
      | error e => exact ⟨e, rfl⟩
      | ok m =>
        obtain ⟨e, he⟩ := ih hct hcf m
        exact ⟨e, he⟩

/-- C9: an inline content-set child (`inlineXML` or `inlineData`) whose
`wordcount` attribute is present but not a valid integer makes the whole
content-set parse fail (in both branches only the absent-attribute
`KeyError` is caught), even though the word-count field itself is
optional. -/
theorem wordcount_invalid_fails : ∀ (tree : Xml) (item : Item) (cs content : Xml) (w : String),
    tree.find (qname "contentSet") = some cs →
    content ∈ cs.children →
    (content.tag = qname "inlineXML" ∨ content.tag = qname "inlineData") →
    content.attribGet "wordcount" = some w →
    (∃ e0, pyInt w = .error e0) →
    ∃ e, parse_content_set tree item = .error e := by
  intro tree item cs content w hcs hmem htag hw he
  obtain ⟨e0, he0⟩ := he
  have hstep : ∀ it : Item, ∃ e, content_set_step it content = .error e := by
    intro it
    refine ⟨e0, ?_⟩
    unfold content_set_step
    rcases htag with htag | htag
    · rw [if_pos htag, parse_wordcount_error hw he0 it]
      rfl
    · rw [if_neg (by rw [htag]; decide), if_pos htag]
      exact parse_wordcount_error hw he0 _
  obtain ⟨e, hfold⟩ :=
    foldlM_error_of_mem cs.children hmem hstep { item with renditions := some [] }
  refine ⟨e, ?_⟩
  simp only [parse_content_set]
  rw [show needT (tree.find (qname "contentSet")) = Except.ok cs from by rw [hcs]; rfl]
  exact hfold

/-- An `inlineXML` content child with an unparsable `wordcount`. -/
def fxWcContent : Xml := .elem (qname "inlineXML")
  [("wordcount", "abc"), ("contenttype", "application/xhtml+xml")] none []

def fxWcTree : Xml := .elem (qname "newsItem") [] none
  [ .elem (qname "contentSet") [] none [fxWcContent] ]

/-- An `inlineData` content child with an unparsable `wordcount`. -/
def fxWcDataContent : Xml := .elem (qname "inlineData")
  [("wordcount", "abc")] (some "plain body") []

def fxWcDataTree : Xml := .elem (qname "newsItem") [] none
  [ .elem (qname "contentSet") [] none [fxWcDataContent] ]

/-- C9 (witness): the wordcount-failure theorem applied to concrete
content sets carrying `wordcount="abc"`, once on an `inlineXML` child and
once on an `inlineData` child. -/
theorem wordcount_invalid_fails_witness :
    (∃ e, parse_content_set fxWcTree {} = .error e) ∧
    (∃ e, parse_content_set fxWcDataTree {} = .error e) :=
  ⟨wordcount_invalid_fails fxWcTree {} (.elem (qname "contentSet") [] none [fxWcContent])
    fxWcContent "abc" (by rfl) (List.mem_cons_self _ _) (Or.inl (by rfl)) (by rfl)
    ⟨.valueError, by decide⟩,
   wordcount_invalid_fails fxWcDataTree {}
    (.elem (qname "contentSet") [] none [fxWcDataContent])
    fxWcDataContent "abc" (by rfl) (List.mem_cons_self _ _) (Or.inr (by rfl)) (by rfl)
    ⟨.valueError, by decide⟩⟩

end NewsMLTwoFeedParser

namespace PictureCrop

/-- `crop_width` of the source: the crop rectangle's width. -/
def crop_width (crop : Crop) : ℚ := crop.CropRight - crop.CropLeft

/-- `crop_height` of the source: the crop rectangle's height. -/
def crop_height (crop : Crop) : ℚ := crop.CropBottom - crop.CropTop

/-- The `size` dict the source builds: explicit `width`/`height` keys win,
else the rectangle dimensions. -/
def crop_size (crop : Crop) : CSize :=
  { width := crop.width.getD (crop_width crop),
    height := crop.height.getD (crop_height crop) }

/-- `crop_ratio` of the source. -/
def crop_ratio (crop : Crop) : ℚ := crop_height crop / crop_width crop

/-- `size_ratio` of the source. -/
def size_ratio (crop : Crop) : ℚ := (crop_size crop).height / (crop_size crop).width

/-- C10: `get_crop_size` always returns the size computed from the crop
dict (`width`/`height` keys, else the rectangle dimensions); when the crop
ratio equals the size ratio the crop dict is returned entirely unchanged,
and when the ratios differ only `CropRight` and `CropBottom` are
reassigned (from `CropLeft`/`CropTop`, which stay untouched, as do
`width`/`height`), using the truncated rescaled dimensions. -/
theorem get_crop_size_spec : ∀ crop : Crop,
    crop_width crop ≠ 0 → (crop_size crop).width ≠ 0 →
    (crop_ratio crop = size_ratio crop →
      get_crop_size crop = .ok (crop_size crop, crop)) ∧
    (crop_ratio crop ≠ size_ratio crop → size_ratio crop ≠ 0 →
      get_crop_size crop = .ok (crop_size crop,
        { crop with
          CropRight := crop.CropLeft +
            ((pyint (crop_height crop / size_ratio crop) : ℤ) : ℚ),
          CropBottom := crop.CropTop +
            ((pyint (((pyint (crop_height crop / size_ratio crop) : ℤ) : ℚ) *
              size_ratio crop) : ℤ) : ℚ) })) := by
  intro crop hcw hsw
  simp only [crop_width, crop_height, crop_size, crop_ratio, size_ratio] at hcw hsw
  constructor
  · intro heq
    simp only [crop_width, crop_height, crop_size, crop_ratio, size_ratio] at heq
    simp only [get_crop_size, pydivQ]
    rw [if_neg hcw]
    rw [exBind_ok_reduce]
    rw [if_neg hsw]
    rw [exBind_ok_reduce]
    rw [if_neg (not_not_intro heq)]
    rfl
  · intro hne hsr
    simp only [crop_width, crop_height, crop_size, crop_ratio, size_ratio] at hne hsr
    simp only [get_crop_size, pydivQ]
    rw [if_neg hcw]
    rw [exBind_ok_reduce]
    rw [if_neg hsw]
    rw [exBind_ok_reduce]
    rw [if_pos hne, if_neg hsr]
    rw [exBind_ok_reduce]
    rfl

/-- A concrete 4x2 crop with an explicit height of 1 (so the size is 4x1
and the ratios differ). -/
def fxCrop : Crop :=
  { CropLeft := 0, CropRight := 4, CropTop := 0, CropBottom := 2,
    width := none, height := some 1 }

/-- C10 (witness): the crop-size theorem applied to the concrete crop. -/
theorem get_crop_size_spec_witness :
    get_crop_size fxCrop = .ok (crop_size fxCrop,
      { fxCrop with
        CropRight := fxCrop.CropLeft +
          ((pyint (crop_height fxCrop / size_ratio fxCrop) : ℤ) : ℚ),
        CropBottom := fxCrop.CropTop +
          ((pyint (((pyint (crop_height fxCrop / size_ratio fxCrop) : ℤ) : ℚ) *
            size_ratio fxCrop) : ℤ) : ℚ) }) :=
  (get_crop_size_spec fxCrop
    (by norm_num [crop_width, fxCrop])
    (by norm_num [crop_size, crop_width, fxCrop])).2
    (by norm_num [crop_ratio, size_ratio, crop_size, crop_width, crop_height, fxCrop])
    (by norm_num [size_ratio, crop_size, crop_width, crop_height, fxCrop])

end PictureCrop

namespace NewsMLTwoFeedParser

/-- C6 (witness): the subject-list theorem applied to a concrete
`contentMeta` subtree with one resolvable and one unresolvable code. -/
theorem subject_list_spec_witness :
    (parse_content_subject fxEnv fxContentMeta {}).subject =
      [SubjEntry.mk "15000000" "Arts, Culture and Entertainment"] ∧
    fxEnv.subject_codes "15000000" = some "Arts, Culture and Entertainment" :=
  ⟨by rw [(subject_list_spec fxEnv fxContentMeta {}).1]; decide,
   (subject_list_spec fxEnv fxContentMeta {}).2
     (SubjEntry.mk "15000000" "Arts, Culture and Entertainment") (by decide)⟩

end NewsMLTwoFeedParser
